import Mathlib

/-!
Verification of the thorium device-control layer: the HV500 serial
codec (`hv500_server.py`), the serial device connection manager
(`serial_device_server.py`), and the TCP transport (`tcp_server.py`),
shallowly embedded in Lean.  Python machine state (serial writes,
buffered lines, registry cursor) is passed explicitly; Python floats
are modelled as exact rationals.
-/

namespace Thorium

attribute [local semireducible] Rat.add Rat.mul Rat.inv Rat.sub

/-- Python-level errors raised by the embedded code.  `portRegError`
corresponds to `PortRegError` (a subclass of `SerialConnectionError`),
`labradError` to `labrad.types.Error` with its numeric code,
`pyException` to a bare `Exception`. -/
inductive PyErr where
  | serialDeviceError (msg : String)
  | serialConnectionError (code : Nat)
  | portRegError (code : Nat)
  | labradError (code : Int)
  | valueError (msg : String)
  | attributeError (msg : String)
  | pyException (msg : String)
  deriving DecidableEq, Repr

/-- The `isinstance(e, SerialConnectionError)` test: `PortRegError`
derives from `SerialConnectionError`, so it matches too. -/
def PyErr.isSerialConnectionError : PyErr → Bool
  | .serialConnectionError _ => true
  | .portRegError _ => true
  | _ => false

/-- The `.code` attribute shared by `SerialConnectionError` and its
subclass `PortRegError`. -/
def PyErr.errCode : PyErr → Nat
  | .serialConnectionError c => c
  | .portRegError c => c
  | _ => 0

instance {ε α : Type} [DecidableEq ε] [DecidableEq α] : DecidableEq (Except ε α) := fun a b =>
  match a, b with
  | .ok x, .ok y =>
    if h : x = y then .isTrue (congrArg Except.ok h)
    else .isFalse (fun c => h (Except.ok.inj c))
  | .error x, .error y =>
    if h : x = y then .isTrue (congrArg Except.error h)
    else .isFalse (fun c => h (Except.error.inj c))
  | .ok _, .error _ => .isFalse (fun c => Except.noConfusion c)
  | .error _, .ok _ => .isFalse (fun c => Except.noConfusion c)

/-- Substring test on character lists, used to embed Python's
`needle in hay` for strings. -/
def subListOf (n : List Char) : List Char → Bool
  | [] => n.isPrefixOf []
  | c :: r => n.isPrefixOf (c :: r) || subListOf n r

/-- The Python membership test `needle in hay` on strings
(substring containment). -/
def pyIn (needle hay : String) : Bool :=
  subListOf needle.data hay.data

/-! ## HV500 codec: channel and voltage encoding -/

/-- `HV500Server.channel_to_str`: `str(channel)`, left-padded with one
`"0"` when it is a single character. -/
def channel_to_str (channel : Int) : String :=
  let s := toString channel
  if s.length > 1 then s else "0" ++ s

/-- Decimal digit lists, most significant first, with explicit fuel so
the definition reduces in the kernel.  `natDigitsAux (n+1) n` is the
digit list of `n`. -/
def natDigitsAux : Nat → Nat → List Nat
  | 0, _ => []
  | fuel + 1, n => if n < 10 then [n] else natDigitsAux fuel (n / 10) ++ [n % 10]

/-- Decimal digits of a natural number, most significant first. -/
def natDigits (n : Nat) : List Nat :=
  natDigitsAux (n + 1) n

/-- Characters of the decimal rendering of `n`, as Python `str(n)`
produces for a non-negative int. -/
def digitChars (n : Nat) : List Char :=
  (natDigits n).map Nat.digitChar

/-- The fractional part of a `%.6f` rendering: the digits of
`m < 10^6`, left-padded with zeros to exactly 6 characters. -/
def padChars6 (m : Nat) : List Char :=
  let ds := digitChars m
  List.replicate (6 - ds.length) '0' ++ ds

/-- Rendering of a non-negative value scaled by `10^6`: integer part,
a dot, then exactly six fractional digits — the shape of Python's
`f-string` `:.6f` format. -/
def fmt6nat (n : Nat) : String :=
  String.mk (digitChars (n / 1000000) ++ '.' :: padChars6 (n % 1000000))

/-- Python `f'{d:.6f}'` on an exact rational `d`: round `d * 10^6` to
the nearest integer and render with six decimal places.  (Python
rounds the nearest binary double half-to-even; on exact rationals away
from ties the two agree, and this model uses Mathlib's `round`.) -/
def fmt6 (d : ℚ) : String :=
  let n : ℤ := round (d * 1000000)
  if n < 0 then String.mk ('-' :: (fmt6nat n.natAbs).data) else fmt6nat n.toNat

/-- `HV500Server.voltage_to_kw`: `d = (v+500)/1000`, rendered as
`f'{d:.6f}'`. -/
def voltage_to_kw (v : ℚ) : String :=
  fmt6 ((v + 500) / 1000)

/-! ## Python float parsing (decimal subset)

`float(s)` for the plain decimal strings this protocol produces:
an optional sign, then digits with at most one dot.  Exponents,
`inf`/`nan`, underscores and surrounding whitespace — which never
occur on this wire protocol — are outside the model and parse to
`none` (a `ValueError`). -/

/-- Value of a run of decimal digit characters, most significant
first. -/
def charDigitVal (cs : List Char) : Nat :=
  cs.foldl (fun a c => a * 10 + (c.toNat - 48)) 0

/-- Splits a character list at the first `'.'`: characters before it,
and `some` of the characters after it (`none` when there is no dot). -/
def splitDot : List Char → List Char × Option (List Char)
  | [] => ([], none)
  | c :: r =>
    if c = '.' then ([], some r)
    else
      let p := splitDot r
      (c :: p.1, p.2)

/-- Value of a parsed decimal literal: sign, integer-part characters,
and optionally the fraction-part characters after a single dot; digits
required, `none` models `ValueError`. -/
def pyFloatVal (sign : ℚ) (ip : List Char) : Option (List Char) → Option ℚ
  | none =>
    if ip ≠ [] ∧ ip.all Char.isDigit then some (sign * charDigitVal ip) else none
  | some fp =>
    if fp.contains '.' then none
    else if (ip ≠ [] ∨ fp ≠ []) ∧ ip.all Char.isDigit ∧ fp.all Char.isDigit then
      some (sign * ((charDigitVal ip : ℚ) + (charDigitVal fp : ℚ) / ((10 ^ fp.length : ℕ) : ℚ)))
    else none

/-- Decimal-subset model of Python `float(s)` on a character list:
optional sign, then integer digits, optional single dot and fraction
digits; at least one digit overall. -/
def pyFloatChars (cs : List Char) : Option ℚ :=
  let sign : ℚ := if cs.headD ' ' = '-' then -1 else 1
  let cs1 : List Char := if cs.headD ' ' = '-' ∨ cs.headD ' ' = '+' then cs.tail else cs
  pyFloatVal sign (splitDot cs1).1 (splitDot cs1).2

/-- Decimal-subset model of Python `float(s)`. -/
def pyFloat (s : String) : Option ℚ :=
  pyFloatChars s.data

/-- Modelled from the spec: the repository has no `decode` function
(`set_voltage` expects no response); the spec's `decode` inverts the
affine keyword encoding, reading the encoded 6-decimal string back as
a rational and mapping `d ↦ d * 1000 - 500`. -/
def decode (s : String) : Option ℚ :=
  (pyFloat s).map (fun d => d * 1000 - 500)

/-! ## HV500 server state and remote operations -/

/-- The `SerialConnection` wrapper held in `self.ser`: the backend
identity `ID`, the accumulated wire writes, and the lines the device
will deliver to `read_line` (a `read_line` on an exhausted buffer
models a timed-out read returning the empty string). -/
structure SerConn where
  id : Nat
  writes : List String
  readBuf : List String
  deriving DecidableEq, Repr

/-- The connection-relevant state of a `SerialDeviceServer`:
`ser` is `none` when disconnected (Python `self.ser = None`). -/
structure ServerState where
  ser : Option SerConn
  deriving DecidableEq, Repr

/-- Voltage bound `VLIM` (volts) from `hv500_server.py`. -/
def VLIM : ℚ := 300

/-- `HV500Server.get_voltage`: writes `"<IDN> Q<ch>\r"`, reads a line,
and parses all but its final character as a float.  The channel is not
validated.  With `self.ser = None`, attribute access on `None` raises
`AttributeError`. -/
def get_voltage (IDN : String) (channel : Int) (st : ServerState) :
    Except PyErr ℚ × ServerState :=
  match st.ser with
  | none => (.error (.attributeError "NoneType object has no attribute write"), st)
  | some conn =>
    let cmd := IDN ++ " Q" ++ channel_to_str channel ++ "\r"
    let val := conn.readBuf.headD ""
    let conn1 : SerConn := ⟨conn.id, conn.writes ++ [cmd], conn.readBuf.tail⟩
    match pyFloat (val.dropRight 1) with
    | some q => (.ok q, ⟨some conn1⟩)
    | none => (.error (.valueError "could not convert string to float"), ⟨some conn1⟩)

/-- `HV500Server.set_voltage`: rejects `voltage > VLIM` or
`voltage < -VLIM` with a `ValueError` before anything else; otherwise
writes `"<IDN> CH<ch> <encoded>\r"`.  With `self.ser = None` the write
raises `AttributeError`. -/
def set_voltage (IDN : String) (channel : Int) (voltage : ℚ) (st : ServerState) :
    Except PyErr Unit × ServerState :=
  if voltage > VLIM ∨ voltage < -VLIM then
    (.error (.valueError "Voltage setpoint out of bounds."), st)
  else
    match st.ser with
    | none => (.error (.attributeError "NoneType object has no attribute write"), st)
    | some conn =>
      let cmd := IDN ++ " CH" ++ channel_to_str channel ++ " " ++ voltage_to_kw voltage ++ "\r"
      (.ok (), ⟨some ⟨conn.id, conn.writes ++ [cmd], conn.readBuf⟩⟩)

/-- Whether an embedded Python call returned normally (did not
raise). -/
def pyOk {α : Type} : Except PyErr α → Bool
  | .ok _ => true
  | .error _ => false

/-- `SerialDeviceServer.checkConnection`: raises
`SerialConnectionError(2)` when `self.ser` is `None`. -/
def checkConnection (st : ServerState) : Except PyErr Unit :=
  match st.ser with
  | none => .error (.serialConnectionError 2)
  | some _ => .ok ()

/-- `SerialDeviceServer.serverDisconnected`: drops the handle only
when one is held and its `ID` matches the event's. -/
def serverDisconnected (ID : Nat) (st : ServerState) : ServerState :=
  match st.ser with
  | some conn => if conn.id = ID then ⟨none⟩ else st
  | none => st

/-! ## Registry model and port resolution -/

/-- The slice of the LabRAD registry the port-resolution code touches:
whether the `Ports` directory exists at the root, its key/value pairs
in listing order, and the mutable directory cursor. -/
structure RegState where
  portsExists : Bool
  entries : List (String × String)
  cursor : List String
  deriving DecidableEq, Repr

/-- `SerialDeviceServer.getPortFromReg`: remembers the cursor, enters
`["", "Ports"]` (a `labrad` `Error` with code 17 when missing, caught,
cursor restored, re-raised as `PortRegError(0)`), derives the key from
`name[:4].lower()` when none is given, filters the listed keys by
substring containment, and returns the value under the first match
after restoring the cursor.  The `PortRegError(1)` raise on no match
is not a `labrad` `Error`, so the `except Error` clause does not run
for it and the cursor stays at `["", "Ports"]`.  The inner `lookup`
failure branch is unreachable (the key comes from the listing) and
stands for `reg.get` raising a `labrad` `Error`, re-raised after the
cursor restore. -/
def getPortFromReg (regKey name : String) (reg : RegState) :
    Except PyErr String × RegState :=
  let tmp := reg.cursor
  if reg.portsExists = false then
    (.error (.portRegError 0), { reg with cursor := tmp })
  else
    let reg1 := { reg with cursor := ["", "Ports"] }
    let key? : Except PyErr String :=
      if regKey ≠ "" then .ok regKey
      else if name ≠ "" then .ok ((name.take 4).toLower)
      else .error (.serialDeviceError "name attribute is None")
    match key? with
    | .error e => (.error e, reg1)
    | .ok key =>
      match (reg.entries.map Prod.fst).filter (fun x => pyIn key x) with
      | [] => (.error (.portRegError 1), reg1)
      | k :: _ =>
        match reg.entries.lookup k with
        | some v => (.ok v, { reg1 with cursor := tmp })
        | none => (.error (.labradError 0), { reg1 with cursor := tmp })

/-- `TCPServer.get_address`: remembers the cursor, enters
`["", "Ports"]` (failure leaves the cursor unmoved and raises a bare
`Exception`), then requires exact key membership; both the hit and the
miss path restore the cursor before returning or raising.  As above,
the `lookup` failure branch is unreachable. -/
def get_address (key : String) (reg : RegState) :
    Except PyErr String × RegState :=
  let cur := reg.cursor
  if reg.portsExists = false then
    (.error (.pyException "Cannot find Ports directory in registry."), reg)
  else
    let reg1 := { reg with cursor := ["", "Ports"] }
    if (reg.entries.map Prod.fst).contains key then
      match reg.entries.lookup key with
      | some v => (.ok v, { reg1 with cursor := cur })
      | none => (.error (.labradError 0), reg1)
    else
      (.error (.pyException "Cannot find key in Ports directory."), { reg1 with cursor := cur })

/-! ## Serial backend discovery and initialization -/

/-- `SerialDeviceServer._matchSerial`: `"serial"` and the node name
must both occur (case-insensitively) in the advertised server name. -/
def matchSerial (serNode potMatch : String) : Bool :=
  pyIn "serial" potMatch.toLower && pyIn serNode.toLower potMatch.toLower

/-- `SerialDeviceServer.findSerial`: first advertised `(ID, name)`
pair whose name matches; `SerialConnectionError(0)` when none does
(the `IndexError` branch). -/
def findSerial (serNode : String) (servers : List (Nat × String)) :
    Except PyErr String :=
  match servers.filter (fun i => matchSerial serNode i.2) with
  | [] => .error (.serialConnectionError 0)
  | i :: _ => .ok i.2

/-- The world `initServer` runs against: the registry, the advertised
servers, whether opening the serial connection succeeds
(`initSerial` raises `SerialConnectionError(1)` otherwise), and the
backend identity the opened handle carries. -/
structure World where
  reg : RegState
  servers : List (Nat × String)
  openOk : Bool
  serID : Nat
  deriving DecidableEq, Repr

/-- The `try` body of `initServer`: `findSerial` then `initSerial`
(which raises `SerialConnectionError(1)` when the open fails). -/
def tryConnect (serNode : String) (w : World) : Except PyErr SerConn :=
  match findSerial serNode w.servers with
  | .error e => .error e
  | .ok _serStr =>
    if w.openOk then .ok ⟨w.serID, [], []⟩ else .error (.serialConnectionError 1)

/-- `SerialDeviceServer.initServer`: requires `regKey` and `serNode`
(fatal `SerialDeviceError` otherwise); resolves the port *outside* any
`try`, so registry failures propagate; then tries backend discovery
and open, catching `SerialConnectionError` with codes 0 and 1 (the
device is left with `self.ser = None`) and re-raising other codes. -/
def initServer (regKey serNode name : String) (w : World) :
    Except PyErr ServerState × RegState :=
  if regKey = "" ∨ serNode = "" then
    (.error (.serialDeviceError "Must define regKey & serNode attributes"), w.reg)
  else
    match getPortFromReg regKey name w.reg with
    | (.error e, reg1) => (.error e, reg1)
    | (.ok _port, reg1) =>
      match tryConnect serNode w with
      | .ok conn => (.ok ⟨some conn⟩, reg1)
      | .error e =>
        if e.isSerialConnectionError then
          if e.errCode = 0 ∨ e.errCode = 1 then (.ok ⟨none⟩, reg1)
          else (.error e, reg1)
        else (.error e, reg1)

/-! ## TCP transport reads -/

/-- Concatenation of the chunks delivered by successive `recv` calls. -/
def strJoin : List String → String
  | [] => ""
  | c :: r => c ++ strJoin r

/-- `TCPServer.readline`: accumulates `recv` chunks while the
terminator does not occur in the accumulated string.  The chunk list
is the byte stream the socket will deliver; the unread remainder is
returned alongside the result, and `none` models blocking forever on
an exhausted stream. -/
def readline (termination : String) : String → List String → Option (String × List String)
  | acc, [] => if pyIn termination acc then some (acc, []) else none
  | acc, c :: rest =>
    if pyIn termination acc then some (acc, c :: rest)
    else readline termination (acc ++ c) rest

/-- Outcome of the single `socket.recv` that `readall` performs:
either a chunk arrives or the receive times out. -/
inductive RecvOutcome where
  | chunk (s : String)
  | timedOut
  deriving DecidableEq, Repr

/-- `TCPServer.readall`: one `recv` inside a `try`.  On timeout it
returns the accumulated string (still `""`); on success the function
body ends without a `return`, so Python returns `None` (`none` here)
and the received chunk is discarded. -/
def readall : RecvOutcome → Option String
  | .chunk _ => none
  | .timedOut => some ""

section SanityChecks
example : channel_to_str 7 = "07" := by decide
example : channel_to_str 17 = "17" := by decide
example : channel_to_str (-5) = "-5" := by decide
example : pyIn "HV500" "HV500_HV264" = true := by decide
example : pyIn "HV500" "OTHER_KEY" = false := by decide
example : fmt6nat 500000 = "0.500000" := by decide
example : pyFloat "12.5" = some (25/2 : ℚ) := by decide
example : pyFloat "0.200000" = some (1/5 : ℚ) := by decide
example : pyFloat "" = none := by decide
example : readline "\n" "" ["12.", "5\n"] = some ("12.5\n", []) := by decide
example : voltage_to_kw 0 = "0.500000" := by decide
example : voltage_to_kw (-300) = "0.200000" := by decide
example : voltage_to_kw 300 = "0.800000" := by decide
example : decode (voltage_to_kw 0) = some 0 := by decide
end SanityChecks

/-! ## Claim C1: channel validation in `get_voltage` -/

/-- C1 counterexample: for channel 17 (outside [1,16]) and a connected
device whose next response line is `"12.5\n"`, `get_voltage` raises no
error (it returns 12.5) and it does access the transport: it writes
`"HV264 Q17\r"` and consumes the buffered line.  This refutes the
claim that an out-of-range channel raises
`ProtocolError{ChannelOutOfRange}` with no transport access. -/
theorem get_voltage_out_of_range_accesses_transport :
    (get_voltage "HV264" 17 ⟨some ⟨0, [], ["12.5\n"]⟩⟩).2 = ⟨some ⟨0, ["HV264 Q17\r"], []⟩⟩ ∧
    pyOk (get_voltage "HV264" 17 ⟨some ⟨0, [], ["12.5\n"]⟩⟩).1 = true := by
  decide

/-- C1 amended: `get_voltage` performs no channel validation at all.
For every integer channel — in range or not — and every connected
state it appends the wire write `"<IDN> Q<ch>\r"` and consumes one
buffered line; no channel-range error exists in the code. -/
theorem get_voltage_no_channel_validation (IDN : String) (channel : Int) (conn : SerConn) :
    (get_voltage IDN channel ⟨some conn⟩).2 =
      ⟨some ⟨conn.id, conn.writes ++ [IDN ++ " Q" ++ channel_to_str channel ++ "\r"],
        conn.readBuf.tail⟩⟩ := by
  simp only [get_voltage]
  cases h : pyFloat ((conn.readBuf.headD "").dropRight 1) <;> rfl

/-! ## Claim C2: `set_voltage` bounds check -/

/-- C2: `set_voltage` raises the out-of-bounds `ValueError` and leaves
the transport state unchanged exactly when `voltage > 300` or
`voltage < -300`; every in-bounds voltage, the boundaries `300` and
`-300` included, is accepted and issues exactly one wire write. -/
theorem set_voltage_bounds (IDN : String) (channel : Int) (voltage : ℚ) (conn : SerConn) :
    ((voltage > 300 ∨ voltage < -300) →
      set_voltage IDN channel voltage ⟨some conn⟩ =
        (.error (.valueError "Voltage setpoint out of bounds."), ⟨some conn⟩)) ∧
    (-300 ≤ voltage → voltage ≤ 300 →
      set_voltage IDN channel voltage ⟨some conn⟩ =
        (.ok (), ⟨some ⟨conn.id,
          conn.writes ++
            [IDN ++ " CH" ++ channel_to_str channel ++ " " ++ voltage_to_kw voltage ++ "\r"],
          conn.readBuf⟩⟩)) := by
  constructor
  · intro h
    simp only [set_voltage, VLIM]
    rw [if_pos h]
  · intro h1 h2
    simp only [set_voltage, VLIM]
    rw [if_neg (by push_neg; exact ⟨h2, h1⟩)]

/-- Witness for C2 at the boundary `300` (accepted, write issued) and
at `301` (rejected, state unchanged). -/
theorem set_voltage_bounds_witness :
    set_voltage "HV264" 1 300 ⟨some ⟨0, [], []⟩⟩ =
      (.ok (), ⟨some ⟨0, ["HV264 CH01 0.800000\r"], []⟩⟩) ∧
    set_voltage "HV264" 1 301 ⟨some ⟨0, [], []⟩⟩ =
      (.error (.valueError "Voltage setpoint out of bounds."), ⟨some ⟨0, [], []⟩⟩) := by
  have h1 := (set_voltage_bounds "HV264" 1 300 ⟨0, [], []⟩).2 (by norm_num) (by norm_num)
  have h2 := (set_voltage_bounds "HV264" 1 301 ⟨0, [], []⟩).1 (by norm_num)
  exact ⟨by rw [h1]; decide, h2⟩

/-! ## Claim C4: behaviour with no live handle -/

/-- C4 counterexample: with `self.ser = None`, `get_voltage` fails
with `AttributeError` (attribute access on `None`), not with
`SerialConnectionError(2)` — the `ConnectionError{NotConnected}` that
`checkConnection` would raise.  `checkConnection` is never called by
`get_voltage`/`set_voltage`. -/
theorem get_voltage_disconnected_attribute_error :
    (get_voltage "HV264" 1 ⟨none⟩).1 =
      .error (.attributeError "NoneType object has no attribute write") ∧
    (get_voltage "HV264" 1 ⟨none⟩).1 ≠ .error (.serialConnectionError 2) := by
  decide

/-- C4 amended: with no live handle, `get_voltage` always fails with
`AttributeError`, `set_voltage` does so for every in-bounds voltage
(an out-of-bounds voltage still hits the `ValueError` first), and the
uncalled `checkConnection` is what would raise
`SerialConnectionError(2)`. -/
theorem disconnected_calls (IDN : String) (channel : Int) (voltage : ℚ) :
    get_voltage IDN channel ⟨none⟩ =
      (.error (.attributeError "NoneType object has no attribute write"), ⟨none⟩) ∧
    (-300 ≤ voltage → voltage ≤ 300 →
      set_voltage IDN channel voltage ⟨none⟩ =
        (.error (.attributeError "NoneType object has no attribute write"), ⟨none⟩)) ∧
    checkConnection ⟨none⟩ = .error (.serialConnectionError 2) := by
  refine ⟨rfl, ?_, rfl⟩
  intro h1 h2
  simp only [set_voltage, VLIM]
  rw [if_neg (by push_neg; exact ⟨h2, h1⟩)]

/-- Witness for C4 amended at channel 1, voltage 0. -/
theorem disconnected_calls_witness :
    get_voltage "HV264" 1 ⟨none⟩ =
      (.error (.attributeError "NoneType object has no attribute write"), ⟨none⟩) ∧
    set_voltage "HV264" 1 0 ⟨none⟩ =
      (.error (.attributeError "NoneType object has no attribute write"), ⟨none⟩) ∧
    checkConnection ⟨none⟩ = .error (.serialConnectionError 2) := by
  have h := disconnected_calls "HV264" 1 0
  exact ⟨h.1, h.2.1 (by norm_num) (by norm_num), h.2.2⟩

/-! ## Claim C7: disconnect notifications and handle identity -/

/-- C7: a backend-unavailability event keeps the held handle when its
identity differs from the handle's, and drops it (transition to
Disconnected) when it matches. -/
theorem serverDisconnected_identity (conn : SerConn) (ID : Nat) :
    (conn.id ≠ ID → serverDisconnected ID ⟨some conn⟩ = ⟨some conn⟩) ∧
    (conn.id = ID → serverDisconnected ID ⟨some conn⟩ = ⟨none⟩) := by
  constructor <;> intro h <;> simp [serverDisconnected, h]

/-- Witness for C7: a handle with identity 5 survives event 7 and is
dropped by event 5. -/
theorem serverDisconnected_identity_witness :
    serverDisconnected 7 ⟨some ⟨5, [], []⟩⟩ = ⟨some ⟨5, [], []⟩⟩ ∧
    serverDisconnected 5 ⟨some ⟨5, [], []⟩⟩ = ⟨none⟩ :=
  ⟨(serverDisconnected_identity ⟨5, [], []⟩ 7).1 (by decide),
   (serverDisconnected_identity ⟨5, [], []⟩ 5).2 rfl⟩

/-! ## Claim C10: `readall` discards received data -/

/-- C10: `readall` never returns received data.  When the single
`recv` succeeds the function body ends without a `return`, so Python
returns `None` and the chunk is discarded; only a first-receive
timeout returns a string, the `""` accumulated so far. -/
theorem readall_first_recv (s : String) :
    readall (.chunk s) = none ∧ readall .timedOut = some "" :=
  ⟨rfl, rfl⟩

/-! ## Registry helper lemmas -/

theorem find?_eq_head?_filter {α : Type} (p : α → Bool) (l : List α) :
    l.find? p = (l.filter p).head? := by
  induction l with
  | nil => rfl
  | cons a t ih =>
    cases h : p a
    · rw [List.find?_cons_of_neg _ (by simp [h]), List.filter_cons_of_neg (by simp [h]), ih]
    · rw [List.find?_cons_of_pos _ h, List.filter_cons_of_pos h, List.head?_cons]

theorem lookup_isSome_of_keys_contains (l : List (String × String)) (k : String)
    (h : (l.map Prod.fst).contains k = true) : ∃ v, l.lookup k = some v := by
  induction l with
  | nil => simp at h
  | cons a t ih =>
    cases he : (k == a.1) with
    | true => exact ⟨a.2, by simp [List.lookup, he]⟩
    | false =>
      have h' : (t.map Prod.fst).contains k = true := by
        simpa [List.contains_cons, he] using h
      obtain ⟨v, hv⟩ := ih h'
      exact ⟨v, by simp [List.lookup, he, hv]⟩

theorem getPortFromReg_ports_missing (key name : String) (reg : RegState)
    (h : reg.portsExists = false) :
    getPortFromReg key name reg = (.error (.portRegError 0), reg) := by
  obtain ⟨pe, es, cur⟩ := reg
  cases h
  simp [getPortFromReg]

theorem getPortFromReg_no_match (key name : String) (reg : RegState)
    (hkey : key ≠ "") (hp : reg.portsExists = true)
    (hf : (reg.entries.map Prod.fst).filter (fun x => pyIn key x) = []) :
    getPortFromReg key name reg =
      (.error (.portRegError 1), { reg with cursor := ["", "Ports"] }) := by
  simp [getPortFromReg, hp, hkey, hf]

theorem getPortFromReg_found (key name k v : String) (rest : List String) (reg : RegState)
    (hkey : key ≠ "") (hp : reg.portsExists = true)
    (hf : (reg.entries.map Prod.fst).filter (fun x => pyIn key x) = k :: rest)
    (hv : reg.entries.lookup k = some v) :
    getPortFromReg key name reg = (.ok v, reg) := by
  obtain ⟨pe, es, cur⟩ := reg
  cases hp
  simp [getPortFromReg, hkey, hf, hv]

theorem get_address_restores_cursor (key : String) (reg : RegState) :
    (get_address key reg).2.cursor = reg.cursor := by
  obtain ⟨pe, es, cur⟩ := reg
  cases pe
  · simp [get_address]
  · simp only [get_address]
    cases hc : (es.map Prod.fst).contains key
    · simp
    · obtain ⟨v, hv⟩ := lookup_isSome_of_keys_contains es key hc
      rw [hv]
      simp

/-! ## Claim C6: port resolution result -/

/-- C6: with the `Ports` namespace missing, `getPortFromReg` fails
with `PortRegError(0)` (not configured); with it present it returns
the value stored under the first listed key containing the lookup
substring, and fails with `PortRegError(1)` (key not found) when no
key contains it. -/
theorem getPortFromReg_resolution (reg : RegState) (key name : String) (hkey : key ≠ "") :
    (reg.portsExists = false →
      getPortFromReg key name reg = (.error (.portRegError 0), reg)) ∧
    (reg.portsExists = true →
      (((reg.entries.map Prod.fst).find? (fun x => pyIn key x) = none →
        (getPortFromReg key name reg).1 = .error (.portRegError 1)) ∧
      (∀ k v, (reg.entries.map Prod.fst).find? (fun x => pyIn key x) = some k →
        reg.entries.lookup k = some v →
        (getPortFromReg key name reg).1 = .ok v))) := by
  refine ⟨fun h => getPortFromReg_ports_missing key name reg h, fun hp => ⟨?_, ?_⟩⟩
  · intro hf
    rw [find?_eq_head?_filter] at hf
    have hnil := List.head?_eq_none_iff.mp hf
    rw [getPortFromReg_no_match key name reg hkey hp hnil]
  · intro k v hf hv
    rw [find?_eq_head?_filter] at hf
    rcases hl : (reg.entries.map Prod.fst).filter (fun x => pyIn key x) with _ | ⟨k0, rest⟩
    · rw [hl] at hf; cases hf
    · rw [hl] at hf
      simp only [List.head?_cons, Option.some.injEq] at hf
      subst hf
      rw [getPortFromReg_found key name k0 v rest reg hkey hp hl hv]

/-- Witness for C6: the spec's own example registry — keys
`["HV500_HV264", "OTHER_KEY"]`, lookup substring `"HV500"` — resolves
to the value stored under `"HV500_HV264"`. -/
theorem getPortFromReg_resolution_witness :
    (getPortFromReg "HV500" "hv500_server"
      ⟨true, [("HV500_HV264", "COM3"), ("OTHER_KEY", "X")], ["w"]⟩).1 = .ok "COM3" :=
  ((getPortFromReg_resolution ⟨true, [("HV500_HV264", "COM3"), ("OTHER_KEY", "X")], ["w"]⟩
    "HV500" "hv500_server" (by decide)).2 rfl).2 "HV500_HV264" "COM3" (by decide) (by decide)

/-! ## Claim C5: cursor restoration -/

/-- C5 counterexample: with the `Ports` directory present, one
non-matching key and starting cursor `["home"]`, `getPortFromReg`
raises `PortRegError(1)` and leaves the cursor at `["", "Ports"]` — it
is not restored to its pre-call value, because `PortRegError` is not a
`labrad` `Error` and the restoring `except` clause never runs. -/
theorem getPortFromReg_cursor_leak :
    (getPortFromReg "HV500" "hv500_server" ⟨true, [("OTHER_KEY", "COM1")], ["home"]⟩).2.cursor
        = ["", "Ports"] ∧
    (getPortFromReg "HV500" "hv500_server" ⟨true, [("OTHER_KEY", "COM1")], ["home"]⟩).2.cursor
        ≠ ["home"] := by
  decide

/-- C5 amended: `getPortFromReg` restores the cursor on the success
path and on the missing-namespace (`NotConfigured`) path, but on the
no-matching-key (`KeyNotFound`) path it leaves the cursor at the
`["", "Ports"]` namespace; the TCP `get_address` restores the cursor
on every exit path. -/
theorem cursor_restore_policy (reg : RegState) (key name : String) (hkey : key ≠ "") :
    (reg.portsExists = false → (getPortFromReg key name reg).2.cursor = reg.cursor) ∧
    (∀ k v, (reg.entries.map Prod.fst).find? (fun x => pyIn key x) = some k →
      reg.entries.lookup k = some v →
      (getPortFromReg key name reg).2.cursor = reg.cursor) ∧
    (reg.portsExists = true →
      (reg.entries.map Prod.fst).find? (fun x => pyIn key x) = none →
      (getPortFromReg key name reg).2.cursor = ["", "Ports"]) ∧
    (∀ key2, (get_address key2 reg).2.cursor = reg.cursor) := by
  refine ⟨?_, ?_, ?_, fun key2 => get_address_restores_cursor key2 reg⟩
  · intro h
    rw [getPortFromReg_ports_missing key name reg h]
  · intro k v hf hv
    by_cases hp : reg.portsExists = false
    · rw [getPortFromReg_ports_missing key name reg hp]
    · rw [Bool.not_eq_false] at hp
      rw [find?_eq_head?_filter] at hf
      rcases hl : (reg.entries.map Prod.fst).filter (fun x => pyIn key x) with _ | ⟨k0, rest⟩
      · rw [hl] at hf; cases hf
      · rw [hl] at hf
        simp only [List.head?_cons, Option.some.injEq] at hf
        subst hf
        rw [getPortFromReg_found key name k0 v rest reg hkey hp hl hv]
  · intro hp hf
    rw [find?_eq_head?_filter] at hf
    have hnil := List.head?_eq_none_iff.mp hf
    rw [getPortFromReg_no_match key name reg hkey hp hnil]

/-- Witness for C5 amended: a missing namespace leaves the cursor as
it was, and `get_address` restores it too. -/
theorem cursor_restore_policy_witness :
    (getPortFromReg "HV500" "hv500_server" ⟨false, [], ["a"]⟩).2.cursor = ["a"] ∧
    (get_address "K" ⟨false, [], ["a"]⟩).2.cursor = ["a"] :=
  ⟨(cursor_restore_policy ⟨false, [], ["a"]⟩ "HV500" "hv500_server" (by decide)).1 rfl,
   (cursor_restore_policy ⟨false, [], ["a"]⟩ "HV500" "hv500_server" (by decide)).2.2.2 "K"⟩

/-! ## Claim C3: initialization error policy -/

/-- C3 counterexample: with the `Ports` namespace missing (the
`RegistryError{NotConfigured}` situation), `initServer` does not
complete with a disconnected device — the `PortRegError(0)` raised by
`getPortFromReg`, which is called outside the `try` block, propagates
out of initialization. -/
theorem initServer_registry_error_fatal :
    (initServer "HV500_HV264" "node_lab" "hv500_server"
        ⟨⟨false, [], ["r"]⟩, [], true, 3⟩).1 = .error (.portRegError 0) ∧
    pyOk (initServer "HV500_HV264" "node_lab" "hv500_server"
        ⟨⟨false, [], ["r"]⟩, [], true, 3⟩).1 = false := by
  decide

/-- C3 amended: registry-resolution failures (`PortRegError` 0 and 1)
propagate out of `initServer` — they are raised before the `try`
block; only backend-location and open failures
(`SerialConnectionError` codes 0 and 1 from `findSerial`/`initSerial`)
are caught and leave the device disconnected (`ser = None`). -/
theorem initServer_error_policy (regKey serNode name : String) (w : World)
    (h1 : regKey ≠ "") (h2 : serNode ≠ "") :
    (w.reg.portsExists = false →
      (initServer regKey serNode name w).1 = .error (.portRegError 0)) ∧
    (w.reg.portsExists = true →
      (((w.reg.entries.map Prod.fst).find? (fun x => pyIn regKey x) = none →
        (initServer regKey serNode name w).1 = .error (.portRegError 1)) ∧
      (∀ k v, (w.reg.entries.map Prod.fst).find? (fun x => pyIn regKey x) = some k →
        w.reg.entries.lookup k = some v →
        ((w.servers.filter (fun i => matchSerial serNode i.2) = [] →
          (initServer regKey serNode name w).1 = .ok ⟨none⟩) ∧
         (w.openOk = false →
          (initServer regKey serNode name w).1 = .ok ⟨none⟩) ∧
         (∀ s rest, w.servers.filter (fun i => matchSerial serNode i.2) = s :: rest →
          w.openOk = true →
          (initServer regKey serNode name w).1 = .ok ⟨some ⟨w.serID, [], []⟩⟩))))) := by
  have hguard : ¬(regKey = "" ∨ serNode = "") := by simp [h1, h2]
  refine ⟨?_, fun hp => ⟨?_, ?_⟩⟩
  · intro hp
    have hg := getPortFromReg_ports_missing regKey name w.reg hp
    simp only [initServer]
    rw [if_neg hguard, hg]
  · intro hf
    rw [find?_eq_head?_filter] at hf
    have hnil := List.head?_eq_none_iff.mp hf
    have hg := getPortFromReg_no_match regKey name w.reg h1 hp hnil
    simp only [initServer]
    rw [if_neg hguard, hg]
  · intro k v hf hv
    rw [find?_eq_head?_filter] at hf
    rcases hl : (w.reg.entries.map Prod.fst).filter (fun x => pyIn regKey x) with _ | ⟨k0, rest0⟩
    · rw [hl] at hf; cases hf
    · rw [hl] at hf
      simp only [List.head?_cons, Option.some.injEq] at hf
      subst hf
      have hg := getPortFromReg_found regKey name k0 v rest0 w.reg h1 hp hl hv
      refine ⟨?_, ?_, ?_⟩
      · intro hflt
        have ht : tryConnect serNode w = .error (.serialConnectionError 0) := by
          simp [tryConnect, findSerial, hflt]
        simp only [initServer]
        rw [if_neg hguard, hg, ht]
        rfl
      · intro ho
        rcases hsv : w.servers.filter (fun i => matchSerial serNode i.2) with _ | ⟨s0, t0⟩
        · have ht : tryConnect serNode w = .error (.serialConnectionError 0) := by
            simp [tryConnect, findSerial, hsv]
          simp only [initServer]
          rw [if_neg hguard, hg, ht]
          rfl
        · have ht : tryConnect serNode w = .error (.serialConnectionError 1) := by
            simp [tryConnect, findSerial, hsv, ho]
          simp only [initServer]
          rw [if_neg hguard, hg, ht]
          rfl
      · intro s rest hsv ho
        have ht : tryConnect serNode w = .ok ⟨w.serID, [], []⟩ := by
          simp [tryConnect, findSerial, hsv, ho]
        simp only [initServer]
        rw [if_neg hguard, hg, ht]

/-- Witness for C3 amended: a backend-open failure is caught and
leaves the device disconnected, while the registry part succeeded. -/
theorem initServer_error_policy_witness :
    (initServer "HV500_HV264" "node_lab" "hv500_server"
      ⟨⟨true, [("HV500_HV264", "COM3")], ["r"]⟩,
       [(2, "node_lab Serial Server")], false, 3⟩).1 = .ok ⟨none⟩ :=
  ((((initServer_error_policy "HV500_HV264" "node_lab" "hv500_server"
      ⟨⟨true, [("HV500_HV264", "COM3")], ["r"]⟩,
       [(2, "node_lab Serial Server")], false, 3⟩
      (by decide) (by decide)).2 rfl).2 "HV500_HV264" "COM3"
      (by decide) (by decide)).2.1 rfl)

/-! ## Claim C8: TCP line read accumulation -/

theorem readline_aux (termination : String) :
    ∀ (chunks : List String) (acc : String),
      pyIn termination (acc ++ strJoin chunks) = true →
      ∃ k, k ≤ chunks.length ∧
        readline termination acc chunks =
          some (acc ++ strJoin (chunks.take k), chunks.drop k) ∧
        pyIn termination (acc ++ strJoin (chunks.take k)) = true ∧
        ∀ j < k, pyIn termination (acc ++ strJoin (chunks.take j)) = false := by
  intro chunks
  induction chunks with
  | nil =>
    intro acc h
    rw [strJoin, String.append_empty] at h
    refine ⟨0, le_rfl, ?_, ?_, fun j hj => absurd hj (Nat.not_lt_zero j)⟩
    · simp [readline, h, strJoin, String.append_empty]
    · simpa [strJoin, String.append_empty] using h
  | cons c rest ih =>
    intro acc h
    cases hacc : pyIn termination acc
    · have h' : pyIn termination ((acc ++ c) ++ strJoin rest) = true := by
        rw [String.append_assoc]
        simp only [strJoin] at h
        exact h
      obtain ⟨k, hk, hr, ht, hmin⟩ := ih (acc ++ c) h'
      have hstep : readline termination acc (c :: rest) = readline termination (acc ++ c) rest := by
        simp [readline, hacc]
      refine ⟨k + 1, by simpa using Nat.succ_le_succ hk, ?_, ?_, ?_⟩
      · rw [hstep, hr, List.take_succ_cons, List.drop_succ_cons, strJoin,
          ← String.append_assoc]
      · rw [List.take_succ_cons, strJoin, ← String.append_assoc]
        exact ht
      · intro j hj
        cases j with
        | zero => simpa [strJoin, String.append_empty] using hacc
        | succ j' =>
          have hmj := hmin j' (by omega)
          rw [List.take_succ_cons, strJoin, ← String.append_assoc]
          exact hmj
    · have hstep : readline termination acc (c :: rest) = some (acc, c :: rest) := by
        simp [readline, hacc]
      refine ⟨0, Nat.zero_le _, ?_, ?_, fun j hj => absurd hj (Nat.not_lt_zero j)⟩
      · rw [hstep]
        simp [strJoin, String.append_empty]
      · simpa [strJoin, String.append_empty] using hacc

/-- C8: whenever the concatenation of the byte chunks the socket will
deliver contains the terminator, `readline` consumes the minimal
prefix of chunks whose accumulated concatenation contains the
terminator and returns exactly that accumulation, leaving the rest of
the stream unread — no duplication, no drop. -/
theorem readline_accumulates (termination : String) (chunks : List String)
    (h : pyIn termination (strJoin chunks) = true) :
    ∃ k, k ≤ chunks.length ∧
      readline termination "" chunks = some (strJoin (chunks.take k), chunks.drop k) ∧
      pyIn termination (strJoin (chunks.take k)) = true ∧
      ∀ j < k, pyIn termination (strJoin (chunks.take j)) = false := by
  exact readline_aux termination chunks "" h

/-- Witness for C8: `"12.5\n"` delivered as `"12."` then `"5\n"` is
returned as the single line `"12.5\n"`, exactly once. -/
theorem readline_accumulates_witness :
    (∃ k, k ≤ (["12.", "5\n"] : List String).length ∧
      readline "\n" "" ["12.", "5\n"] =
        some (strJoin (["12.", "5\n"].take k), ["12.", "5\n"].drop k) ∧
      pyIn "\n" (strJoin (["12.", "5\n"].take k)) = true ∧
      ∀ j < k, pyIn "\n" (strJoin (["12.", "5\n"].take j)) = false) ∧
    readline "\n" "" ["12.", "5\n"] = some ("12.5\n", []) :=
  ⟨readline_accumulates "\n" ["12.", "5\n"] (by decide), by decide⟩

/-! ## Claim C9 helper lemmas: decimal digit lists -/

theorem natDigitsAux_lt (fuel : Nat) :
    ∀ n, n < fuel → ∀ d ∈ natDigitsAux fuel n, d < 10 := by
  induction fuel with
  | zero => intro n h; omega
  | succ f ih =>
    intro n hn d hd
    rw [natDigitsAux] at hd
    by_cases h10 : n < 10
    · rw [if_pos h10] at hd
      simp only [List.mem_singleton] at hd
      omega
    · rw [if_neg h10] at hd
      rcases List.mem_append.mp hd with h1 | h2
      · have hdiv : n / 10 < f := by
          have hself : n / 10 < n := Nat.div_lt_self (by omega) (by omega)
          omega
        exact ih (n / 10) hdiv d h1
      · simp only [List.mem_singleton] at h2
        subst h2
        exact Nat.mod_lt _ (by omega)

theorem natDigitsAux_val (fuel : Nat) :
    ∀ n, n < fuel →
      (natDigitsAux fuel n).foldl (fun a d => a * 10 + d) 0 = n := by
  induction fuel with
  | zero => intro n h; omega
  | succ f ih =>
    intro n hn
    rw [natDigitsAux]
    by_cases h10 : n < 10
    · rw [if_pos h10]
      simp
    · rw [if_neg h10]
      have hdiv : n / 10 < f := by
        have hself : n / 10 < n := Nat.div_lt_self (by omega) (by omega)
        omega
      rw [List.foldl_append]
      simp only [List.foldl_cons, List.foldl_nil]
      rw [ih (n / 10) hdiv]
      omega

theorem natDigitsAux_length (fuel : Nat) :
    ∀ n k, n < fuel → n < 10 ^ (k + 1) →
      (natDigitsAux fuel n).length ≤ k + 1 := by
  induction fuel with
  | zero => intro n k h; omega
  | succ f ih =>
    intro n k hn hk
    rw [natDigitsAux]
    by_cases h10 : n < 10
    · rw [if_pos h10]
      simp
    · rw [if_neg h10]
      cases k with
      | zero => simp at hk; omega
      | succ k' =>
        have hdiv : n / 10 < f := by
          have hself : n / 10 < n := Nat.div_lt_self (by omega) (by omega)
          omega
        have hk' : n / 10 < 10 ^ (k' + 1) := by
          rw [Nat.div_lt_iff_lt_mul (by omega)]
          calc n < 10 ^ (k' + 2) := hk
          _ = 10 ^ (k' + 1) * 10 := by ring
        have := ih (n / 10) k' hdiv hk'
        rw [List.length_append]
        simp only [List.length_singleton]
        omega

theorem digitChar_isDigit : ∀ d, d < 10 → (Nat.digitChar d).isDigit = true := by decide

theorem digitChar_toNat : ∀ d, d < 10 → (Nat.digitChar d).toNat - 48 = d := by decide

theorem foldl_map_digitChar : ∀ (ds : List Nat) (init : Nat), (∀ d ∈ ds, d < 10) →
    List.foldl (fun a c => a * 10 + (c.toNat - 48)) init (ds.map Nat.digitChar) =
    List.foldl (fun a d => a * 10 + d) init ds := by
  intro ds
  induction ds with
  | nil => intro init _; rfl
  | cons d t ih =>
    intro init hd
    simp only [List.map_cons, List.foldl_cons]
    rw [digitChar_toNat d (hd d (by simp))]
    exact ih _ (fun x hx => hd x (by simp [hx]))

theorem charDigitVal_digitChars (n : Nat) : charDigitVal (digitChars n) = n := by
  unfold charDigitVal digitChars natDigits
  rw [foldl_map_digitChar _ 0 (natDigitsAux_lt (n + 1) n (by omega))]
  exact natDigitsAux_val (n + 1) n (by omega)

theorem digitChars_length_le (n k : Nat) (h : n < 10 ^ (k + 1)) :
    (digitChars n).length ≤ k + 1 := by
  unfold digitChars natDigits
  rw [List.length_map]
  exact natDigitsAux_length (n + 1) n k (by omega) h

theorem digitChars_all_isDigit (n : Nat) : (digitChars n).all Char.isDigit = true := by
  rw [List.all_eq_true]
  intro c hc
  obtain ⟨d, hd, rfl⟩ := List.mem_map.mp hc
  exact digitChar_isDigit d (natDigitsAux_lt (n + 1) n (by omega) d hd)

theorem padChars6_all_isDigit (m : Nat) : (padChars6 m).all Char.isDigit = true := by
  unfold padChars6
  rw [List.all_eq_true]
  intro c hc
  rcases List.mem_append.mp hc with h1 | h2
  · rw [List.eq_of_mem_replicate h1]
    decide
  · exact List.all_eq_true.mp (digitChars_all_isDigit m) c h2

theorem no_dot_of_all_digits (l : List Char) (h : l.all Char.isDigit = true) :
    l.contains '.' = false := by
  rw [← Bool.not_eq_true]
  intro hc
  have hmem : ('.' : Char) ∈ l := by
    rw [List.contains_iff_exists_mem_beq] at hc
    obtain ⟨x, hx, hbeq⟩ := hc
    rw [show x = '.' from (beq_iff_eq.mp hbeq).symm] at hx
    exact hx
  have := List.all_eq_true.mp h _ hmem
  simp at this

theorem foldl_replicate_zero : ∀ (z : Nat) (l : List Char),
    List.foldl (fun a c => a * 10 + (c.toNat - 48)) 0 (List.replicate z '0' ++ l) =
    List.foldl (fun a c => a * 10 + (c.toNat - 48)) 0 l := by
  intro z
  induction z with
  | zero => intro l; rfl
  | succ z' ih =>
    intro l
    rw [List.replicate_succ, List.cons_append, List.foldl_cons]
    exact ih l

theorem padChars6_val (m : Nat) : charDigitVal (padChars6 m) = m := by
  unfold padChars6 charDigitVal
  rw [foldl_replicate_zero]
  exact charDigitVal_digitChars m

theorem padChars6_length (m : Nat) (h : m < 1000000) : (padChars6 m).length = 6 := by
  unfold padChars6
  rw [List.length_append, List.length_replicate]
  have hle := digitChars_length_le m 5 (by norm_num; omega)
  omega

theorem splitDot_cons_zero (l : List Char) : splitDot ('0' :: '.' :: l) = (['0'], some l) := by
  simp [splitDot]

theorem pyFloatChars_pad (m : Nat) (h : m < 1000000) :
    pyFloatChars ('0' :: '.' :: padChars6 m) = some ((m : ℚ) / 1000000) := by
  have hdot := no_dot_of_all_digits _ (padChars6_all_isDigit m)
  have hall := padChars6_all_isDigit m
  have hlen := padChars6_length m h
  have hv := padChars6_val m
  have h0 : charDigitVal ['0'] = 0 := rfl
  have hdig : ('0' : Char).isDigit = true := rfl
  simp only [pyFloatChars, List.headD_cons]
  rw [if_neg (by decide : ¬(('0' : Char) = '-' ∨ ('0' : Char) = '+')),
    if_neg (by decide : ¬(('0' : Char) = '-'))]
  rw [splitDot_cons_zero]
  simp only [pyFloatVal, hdot, hall, hlen, hv, h0, hdig]
  push_cast
  norm_num
  intro hcontra
  exact Bool.noConfusion (hdig.symm.trans hcontra)

theorem fmt6_eq_pad (d : ℚ) (m : Nat) (hm : m < 1000000)
    (h : round (d * 1000000) = (m : Int)) :
    fmt6 d = String.mk ('0' :: '.' :: padChars6 m) := by
  simp only [fmt6]
  rw [h, if_neg (by simp), Int.toNat_natCast]
  unfold fmt6nat
  rw [Nat.div_eq_of_lt hm, Nat.mod_eq_of_lt hm]
  rfl

/-! ## Claim C9: voltage encoding and round-trip -/

/-- C9: the voltage keyword encoding maps `0`, `-300`, `300` to
`"0.500000"`, `"0.200000"`, `"0.800000"`, and for every rational
voltage in `[-300, 300]` the spec's decode of the encoded 6-decimal
string recovers the voltage to within `1/100` volt (10 mV), the
device's stated resolution — indeed within `1/2000` volt. -/
theorem voltage_codec_roundtrip :
    voltage_to_kw 0 = "0.500000" ∧ voltage_to_kw (-300) = "0.200000" ∧
    voltage_to_kw 300 = "0.800000" ∧
    ∀ v : ℚ, -300 ≤ v → v ≤ 300 →
      ∃ w, decode (voltage_to_kw v) = some w ∧ |w - v| ≤ 1/100 := by
  refine ⟨by decide, by decide, by decide, ?_⟩
  intro v hv1 hv2
  set x : ℚ := (v + 500) / 1000 * 1000000 with hx
  have hx' : x = (v + 500) * 1000 := by rw [hx]; ring
  set n : ℤ := round x with hn
  have habs : |x - (n : ℚ)| ≤ 1/2 := abs_sub_round x
  have habs' := abs_le.mp habs
  have hlo : (200000 : ℚ) ≤ x := by rw [hx']; linarith
  have hhi : x ≤ (800000 : ℚ) := by rw [hx']; linarith
  have hn0 : 0 ≤ n := by
    have : (0 : ℚ) ≤ (n : ℚ) := by linarith
    exact_mod_cast this
  have hnlt : n < 1000000 := by
    have : (n : ℚ) < 1000000 := by linarith
    exact_mod_cast this
  set m : Nat := n.toNat with hm
  have hmn : (m : ℤ) = n := Int.toNat_of_nonneg hn0
  have hmlt : m < 1000000 := by omega
  have hmq : (m : ℚ) = (n : ℚ) := by exact_mod_cast hmn
  have hround : round ((v + 500) / 1000 * 1000000) = (m : ℤ) := by
    rw [← hx, hmn]
  have hfmt : fmt6 ((v + 500) / 1000) = String.mk ('0' :: '.' :: padChars6 m) :=
    fmt6_eq_pad _ m hmlt hround
  refine ⟨(m : ℚ) / 1000000 * 1000 - 500, ?_, ?_⟩
  · show decode (fmt6 ((v + 500) / 1000)) = _
    rw [hfmt]
    show (pyFloatChars ('0' :: '.' :: padChars6 m)).map (fun d => d * 1000 - 500) = _
    rw [pyFloatChars_pad m hmlt]
    rfl

  · have hmx : |(m : ℚ) - x| ≤ 1/2 := by
      rw [hmq, abs_sub_comm]
      exact habs
    have hmx' := abs_le.mp hmx
    rw [abs_le]
    constructor <;> linarith

/-- Witness for C9's quantified round-trip part at voltage 0. -/
theorem voltage_codec_roundtrip_witness :
    ∃ w, decode (voltage_to_kw 0) = some w ∧ |w - 0| ≤ 1/100 :=
  voltage_codec_roundtrip.2.2.2 0 (by norm_num) (by norm_num)

end Thorium
